import Mathlib

set_option maxRecDepth 10000

/-!
Shallow embedding of the multi-agent SEO analyzer orchestration core
(orchestrator.py, server.py, database.py, observability.py, tools.py,
agents.py).  Pure text heuristics are translated as Lean functions on
character lists; the effectful pipeline is translated as an explicit
function of an environment record describing the outcome of every
external call (store operations, capability invocations, clock), and it
returns the raised-or-returned outcome together with the list of
persisted side effects.
-/

namespace SeoAnalyzer

/-! ### Character classes and digit runs (Python regex building blocks) -/

/-- Python regex class backslash-s over ASCII text: space, tab, newline,
carriage return, vertical tab, form feed. -/
def isPySpace (c : Char) : Bool :=
  c = ' ' || c = '\t' || c = '\n' || c = '\r' || c = '\x0b' || c = '\x0c'

/-- Character class [:\s] used by the score regexes. -/
def isSepChar (c : Char) : Bool := c = ':' || isPySpace c

/-- Numeric value of a run of decimal digit characters. -/
def digitsVal (ds : List Char) : Nat :=
  ds.foldl (fun a c => 10 * a + (c.toNat - 48)) 0

/-- ASCII lowering of one character, the ASCII case of Python str.lower
(all text this system feeds through the parsers is ASCII). -/
def charLower (c : Char) : Char :=
  if 65 ≤ c.toNat ∧ c.toNat ≤ 90 then Char.ofNat (c.toNat + 32) else c

/-- ASCII lowering of a character list. -/
def lowerChars (l : List Char) : List Char := l.map charLower

/-- Decides whether pat occurs as a contiguous substring of the second list. -/
def hasSub (pat : List Char) : List Char → Bool
  | [] => pat.isPrefixOf ([] : List Char)
  | c :: t => pat.isPrefixOf (c :: t) || hasSub pat t

/-! ### Overall-score extraction (orchestrator.py lines 386-397)

The orchestrator extracts a score from each successful agent output with
re.search applied to the lowercased text and the pattern
score[:\s]+(\d+) : the keyword score, one or more colon/whitespace
characters, then a digit run.  re.search takes the leftmost position at
which the whole pattern matches; both quantifiers are greedy, and since
digits are not separator characters the match at a given keyword
occurrence succeeds exactly when the character after the maximal
separator run is a digit, capturing the maximal digit run there. -/

/-- Tail [:\s]+(\d+) of the orchestrator score pattern, applied to the text
right after an occurrence of the keyword score. -/
def scoreNumAfter (cs : List Char) : Option Nat :=
  let sep := cs.takeWhile isSepChar
  if sep.isEmpty then none
  else
    let ds := (cs.drop sep.length).takeWhile Char.isDigit
    if ds.isEmpty then none else some (digitsVal ds)

/-- Leftmost match of score[:\s]+(\d+), scanning candidate start positions
left to right as re.search does. -/
def searchScoreKw : List Char → Option Nat
  | [] => none
  | c :: t =>
    match
      if ("score".data).isPrefixOf (c :: t) then scoreNumAfter ((c :: t).drop 5)
      else none
    with
    | some n => some n
    | none => searchScoreKw t

/-- Score extraction used by analyze_website for the overall score:
re.search applied to the lowercased agent output.  The Python source
lowercases with str.lower; this embedding uses ASCII lowering, which
agrees on the ASCII report text the system produces. -/
def parseScore (s : String) : Option Nat := searchScoreKw (lowerChars s.data)

/-- Python str.upper for ASCII, used when labelling agent outputs in the
report prompt. -/
def charUpper (c : Char) : Char :=
  if 97 ≤ c.toNat ∧ c.toNat ≤ 122 then Char.ofNat (c.toNat - 32) else c

/-- ASCII uppering of a string. -/
def upperStr (s : String) : String := ⟨s.data.map charUpper⟩

/-- Overall score: floor average of the collected scores, left at the
default 0 when no score parsed (orchestrator.py lines 396-397). -/
def aggregateOverall (scores : List Nat) : Nat :=
  if scores.isEmpty then 0 else scores.sum / scores.length

/-! ### Category-score extraction (server.py parse_category_scores)

The primary pattern per category is
(?:kw1|kw2|...).*?(?:score|rating)[:\s]*(\d+)(?:/100)? with DOTALL,
applied by re.search to the lowercased report.  Leftmost-match semantics:
the earliest start position wins; at a given start the listed keyword
alternatives are tried in order, and the lazy .*? finds the earliest
following position where (?:score|rating)[:\s]*(\d+) completes.  The
trailing optional (?:/100)? never affects the captured digits. -/

/-- Tail [:\s]*(\d+) with the separator run optional. -/
def numAfterOptSep (cs : List Char) : Option Nat :=
  let sep := cs.takeWhile isSepChar
  let ds := (cs.drop sep.length).takeWhile Char.isDigit
  if ds.isEmpty then none else some (digitsVal ds)

/-- Match of (?:score|rating)[:\s]*(\d+) anchored at the given position. -/
def scoreRatingNumAt (cs : List Char) : Option Nat :=
  if ("score".data).isPrefixOf cs then numAfterOptSep (cs.drop 5)
  else if ("rating".data).isPrefixOf cs then numAfterOptSep (cs.drop 6)
  else none

/-- Lazy search .*?(?:score|rating)[:\s]*(\d+): earliest completion. -/
def searchScoreRating : List Char → Option Nat
  | [] => none
  | c :: t =>
    match scoreRatingNumAt (c :: t) with
    | some n => some n
    | none => searchScoreRating t

/-- Keyword alternation anchored at a position: alternatives are tried in
the listed order, and on a prefix match the rest of the pattern must
complete somewhere to the right, else the next alternative is tried. -/
def matchKwAt (cs : List Char) : List (List Char) → Option Nat
  | [] => none
  | kw :: rest =>
    if kw.isPrefixOf cs then
      match searchScoreRating (cs.drop kw.length) with
      | some n => some n
      | none => matchKwAt cs rest
    else matchKwAt cs rest

/-- Leftmost match of the full primary category pattern. -/
def searchCategory (kws : List (List Char)) : List Char → Option Nat
  | [] => none
  | c :: t =>
    match matchKwAt (c :: t) kws with
    | some n => some n
    | none => searchCategory kws t

/-- Keyword alternatives of the security pattern (?:security|ssl|https). -/
def securityKws : List (List Char) := ["security".data, "ssl".data, "https".data]

/-- Keyword alternatives of the onpage pattern (?:on-?page|meta|seo); the
greedy optional hyphen makes on-page precede onpage. -/
def onpageKws : List (List Char) :=
  ["on-page".data, "onpage".data, "meta".data, "seo".data]

/-- Keyword alternatives of the content pattern (?:content|text|quality). -/
def contentKws : List (List Char) := ["content".data, "text".data, "quality".data]

/-- Keyword alternatives of the performance pattern
(?:performance|speed|loading). -/
def performanceKws : List (List Char) :=
  ["performance".data, "speed".data, "loading".data]

/-- Keyword alternatives of the indexability pattern
(?:indexability|crawl|robot). -/
def indexabilityKws : List (List Char) :=
  ["indexability".data, "crawl".data, "robot".data]

/-! The fallback branch of parse_category_scores builds its pattern with
an f-string, rf"#\x7b1,3\x7d\s*\x7bcategory\x7d.*?(\d+)\s*/\s*100".  The
first replacement field is the Python expression 1,3 - a tuple - so the
pattern text is actually #(1, 3)\s*<category>.*?(\d+)\s*/\s*100, whose
first capturing group is (1, 3), matching the literal text "1, 3".  When
this pattern does match, match.group(1) is the string "1, 3", int of it
raises ValueError, and the except branch assigns 75; when it does not
match, the else branch assigns 75.  Both arms of the fallback therefore
yield 75.  The matcher below decides whether the (accidental) pattern
matches at all, mirroring that structure. -/

/-- Match of (\d+)\s*/\s*100 anchored at the given position. -/
def digitsSlash100At (cs : List Char) : Bool :=
  let ds := cs.takeWhile Char.isDigit
  if ds.isEmpty then false
  else
    let r1 := cs.drop ds.length
    let sp1 := r1.takeWhile isPySpace
    match r1.drop sp1.length with
    | '/' :: r3 =>
      let sp2 := r3.takeWhile isPySpace
      ("100".data).isPrefixOf (r3.drop sp2.length)
    | _ => false

/-- Lazy search for (\d+)\s*/\s*100. -/
def searchDigits100 : List Char → Bool
  | [] => false
  | c :: t => digitsSlash100At (c :: t) || searchDigits100 t

/-- Match of the fallback pattern anchored at the given position: the
literal "#1, 3", optional whitespace, the category name, then lazily
(\d+)\s*/\s*100. -/
def secondaryMatchAt (cat : List Char) (cs : List Char) : Bool :=
  if ("#1, 3".data).isPrefixOf cs then
    let r := cs.drop 5
    let sp := r.takeWhile isPySpace
    if cat.isPrefixOf (r.drop sp.length) then
      searchDigits100 ((r.drop sp.length).drop cat.length)
    else false
  else false

/-- Leftmost match of the full fallback pattern. -/
def secondaryMatch (cat : List Char) : List Char → Bool
  | [] => false
  | c :: t => secondaryMatchAt cat (c :: t) || secondaryMatch cat t

/-- Value assigned to one category by parse_category_scores: the clamped
captured integer on a primary match, 75 otherwise (the fallback branch
yields 75 on both of its arms, see the comment above). -/
def categoryScore (cat : String) (kws : List (List Char)) (rl : List Char) : Nat :=
  match searchCategory kws rl with
  | some v => min 100 v
  | none => if secondaryMatch cat.data rl then 75 else 75

/-- The five fixed categories with their keyword alternations, in the
iteration order of the Python dict literal. -/
def categoriesSpec : List (String × List (List Char)) :=
  [("security", securityKws), ("onpage", onpageKws), ("content", contentKws),
   ("performance", performanceKws), ("indexability", indexabilityKws)]

/-- server.py parse_category_scores: one clamped-or-default value per
fixed category, extracted from the lowercased report. -/
def parse_category_scores (report : String) : List (String × Nat) :=
  categoriesSpec.map (fun p => (p.1, categoryScore p.1 p.2 (lowerChars report.data)))

/-! ### URL normalization (server.py validate_url, tools.py normalize_url) -/

/-- Python str.startswith on the character-list model. -/
def startsWithStr (s pre : String) : Bool := pre.data.isPrefixOf s.data

/-- server.py AnalysisRequest.validate_url: prefix https:// when the URL
has no scheme. -/
def validate_url (v : String) : String :=
  if startsWithStr v "http://" || startsWithStr v "https://" then v
  else "https://" ++ v

/-- Python str.strip over ASCII whitespace, used by tools.py
normalize_url. -/
def stripStr (s : String) : String :=
  ⟨((s.data.dropWhile isPySpace).reverse.dropWhile isPySpace).reverse⟩

/-- tools.py normalize_url: strip surrounding whitespace then prefix
https:// when the URL has no scheme. -/
def normalize_url (url : String) : String :=
  let u := stripStr url
  if startsWithStr u "http://" || startsWithStr u "https://" then u
  else "https://" ++ u

/-! ### Server-side overall score handling (server.py run_analysis and
get_analysis_results) -/

/-- server.py run_analysis: result.overall_score if result.overall_score
else 75 - Python truthiness replaces a 0 score by 75 before storing. -/
def serverOverallScore (score : Nat) : Nat :=
  if score ≠ 0 then score else 75

/-- server.py get_analysis_results: analysis.get("overall_score", 75) -
the stored value when present, else the default 75. -/
def resultsEndpointOverall (stored : Option Nat) : Nat := stored.getD 75

/-! ### Worker prompts (orchestrator.py run_parallel_analysis) -/

/-- Names of the five parallel analysis agents, in ANALYSIS_AGENTS order
(agents.py). -/
def analysisAgentNames : List String :=
  ["security_agent", "onpage_agent", "content_agent", "performance_agent",
   "indexability_agent"]

/-- Agents with an initialized Runner: the analysis agents plus the report
agent (orchestrator.py init of runners). -/
def runnerNames : List String := analysisAgentNames ++ ["report_agent"]

/-- The agent_prompts dict literal of run_parallel_analysis together with
its .get default. -/
def agentPrompt (url name : String) : String :=
  if name = "security_agent" then
    "Analyze the security of this website: " ++ url ++
      ". Check HTTPS, SSL, and security headers."
  else if name = "onpage_agent" then
    "Analyze the on-page SEO of this website: " ++ url ++
      ". Check title, meta description, headings, and images."
  else if name = "content_agent" then
    "Analyze the content quality of this website: " ++ url ++
      ". Check word count and internal linking."
  else if name = "performance_agent" then
    "Analyze the performance of this website: " ++ url ++
      ". Check page speed and mobile-friendliness."
  else if name = "indexability_agent" then
    "Analyze the indexability of this website: " ++ url ++
      ". Check robots.txt, sitemap, and meta robots."
  else "Analyze this website: " ++ url

/-! ### Single-agent execution (orchestrator.py _run_agent)

The effectful code is embedded as a function of an environment record
that fixes the outcome of every external call: the capability invocation
(a function of the prompt, yielding the concatenated output text or the
raised fault message) and the two durable-store log inserts.  Elapsed
time is supplied as a nonnegative millisecond count; the source computes
it as int((time.time() - start_time) * 1000), which is nonnegative
whenever the clock does not step backwards during the call.  The first
component of the output is the Python outcome (Except.error models a
raised exception escaping the function); the second lists the externally
observable side effects in program order. -/

/-- Result record of one agent execution (orchestrator.py AgentResult). -/
structure AgentResult where
  agent_name : String
  success : Bool
  result : String
  duration_ms : Int
  error : Option String := none
deriving Repr, DecidableEq

/-- Scores collected across the result map in insertion order, keeping
only successful agents whose output parses (orchestrator.py lines
387-394). -/
def collectScores (rs : List (String × AgentResult)) : List Nat :=
  rs.filterMap (fun p => if p.2.success then parseScore p.2.result else none)

/-- Environment of one _run_agent call: outcomes of its external calls. -/
structure WorkerEnv where
  invoke : String → Except String String
  logComplete : Except String Unit
  logError : Except String Unit
  elapsedMs : Nat
deriving Inhabited

/-- Externally observable side effects of the pipeline.  The tracer
constructors exist because observability.py provides start_trace,
end_trace and span; which of them the pipeline actually emits is proved
below. -/
inductive Effect where
  | statusWrite (status : String) (errorMessage : Option String)
  | agentLog (agent action : String)
  | invoked (agent prompt : String)
  | traceStart
  | traceEnd
  | spanRec (name : String)
deriving Repr, DecidableEq

/-- orchestrator.py _run_agent for an agent whose Runner exists: run the
capability, log to the store, and catch any fault of either call; a fault
raised by the store insert inside the except block escapes the function
(Except.error). -/
def runAgent (name prompt : String) (env : WorkerEnv) :
    Except String AgentResult × List Effect :=
  match env.invoke prompt with
  | .ok text =>
    match env.logComplete with
    | .ok _ =>
      (.ok { agent_name := name, success := true, result := text,
             duration_ms := (env.elapsedMs : Int), error := none },
       [.invoked name prompt, .agentLog name "analysis_complete"])
    | .error m =>
      -- the store fault inside the try block is caught by the except block
      match env.logError with
      | .ok _ =>
        (.ok { agent_name := name, success := false, result := "",
               duration_ms := (env.elapsedMs : Int), error := some m },
         [.invoked name prompt, .agentLog name "analysis_error"])
      | .error m2 => (.error m2, [.invoked name prompt])
  | .error m =>
    match env.logError with
    | .ok _ =>
      (.ok { agent_name := name, success := false, result := "",
             duration_ms := (env.elapsedMs : Int), error := some m },
       [.invoked name prompt, .agentLog name "analysis_error"])
    | .error m2 => (.error m2, [.invoked name prompt])

/-- orchestrator.py _run_agent including the missing-Runner guard. -/
def runAgentFull (name prompt : String) (env : WorkerEnv) :
    Except String AgentResult × List Effect :=
  if name ∈ runnerNames then runAgent name prompt env
  else
    (.ok { agent_name := name, success := false, result := "",
           duration_ms := 0,
           error := some ("Runner not found for agent: " ++ name) }, [])

/-! ### Parallel fan-out / fan-in (orchestrator.py run_parallel_analysis)

asyncio.gather(*tasks, return_exceptions=True) settles every task -
success or failure - and yields the outcomes in task order; an outcome
that is an exception is logged and skipped when the result dict is
built.  Each task is pure in the environment model, so the gather is the
per-name map below, and the linearization of the concurrently emitted
side effects follows task order. -/

/-- orchestrator.py run_parallel_analysis: dispatch every analysis agent
with its prompt, wait for all outcomes, and keep the AgentResult
outcomes keyed by agent name. -/
def runParallelAnalysis (url : String) (envs : String → WorkerEnv) :
    List (String × AgentResult) × List Effect :=
  let outs := analysisAgentNames.map
    (fun n => runAgentFull n (agentPrompt url n) (envs n))
  (outs.filterMap (fun o =>
      match o.1 with
      | .ok r => some (r.agent_name, r)
      | .error _ => none),
   (outs.map Prod.snd).flatten)

/-! ### Report synthesis prompt (orchestrator.py generate_report) -/

/-- One labelled block of the results summary; a failed agent appears as
Analysis failed: followed by the Python string form of its error field. -/
def resultLine (p : String × AgentResult) : String :=
  "--- " ++ upperStr p.1 ++ " ---\n" ++
  (if p.2.success then p.2.result ++ "\n\n"
   else "Analysis failed: " ++ p.2.error.getD "None" ++ "\n\n")

/-- The synthesis instruction embedding every labelled worker output. -/
def reportPrompt (url : String) (results : List (String × AgentResult)) : String :=
  "Based on the following SEO analysis results, create a comprehensive SEO report for the website.\n\n"
  ++ "Website analyzed: " ++ url ++ "\n\n=== ANALYSIS RESULTS ===\n\n"
  ++ String.join (results.map resultLine)
  ++ "\n\nCreate a well-formatted markdown report that includes:\n1. Executive Summary with overall score\n2. What is working well (positives)\n3. Issues found (organized by category)\n4. Prioritized recommendations\n5. Next steps\n\nMake the report easy to understand for non-technical users."

/-! ### Top-level pipeline (orchestrator.py analyze_website) -/

/-- Result record of a whole analysis (orchestrator.py
SEOAnalysisResult). -/
structure SEOAnalysisResult where
  url : String
  request_id : String
  agent_results : List (String × AgentResult) := []
  final_report : Option String := none
  pdf_path : Option String := none
  overall_score : Nat := 0
  total_duration_ms : Int := 0
  status : String := "pending"
deriving Repr, DecidableEq

/-- Environment of one analyze_website call: outcomes of every external
call it makes, in program order.  generate_report_pdf lives in
pdf_service.py, which is not part of the analyzed sources; modelled from
the spec: the artifact generator returns a path or none and its failure
degrades gracefully, so it is a plain Option here. -/
structure PipelineEnv where
  createReq : Except String String
  updAnalyzing : Except String Bool
  createSessions : Except String Unit
  logParallelStart : Except String Unit
  workerEnvs : String → WorkerEnv
  logReportStart : Except String Unit
  reportEnv : WorkerEnv
  pdfPath : Option String
  updFinal : Except String Bool
  updFailed : Except String Bool
  elapsedTotalMs : Nat

/-- database.py update_request_status stores error_message only when it
is truthy, i.e. a non-empty string. -/
def storedError (e : String) : Option String :=
  if e = "" then none else some e

/-- The except block of analyze_website: mark the in-flight result record
failed, attempt the failed-status store update, and re-raise only the
fault of that update itself. -/
def exceptBlock (r : SEOAnalysisResult) (e : String) (effs : List Effect)
    (env : PipelineEnv) : Except String SEOAnalysisResult × List Effect :=
  let r2 := { r with status := "failed",
                     total_duration_ms := (env.elapsedTotalMs : Int) }
  match env.updFailed with
  | .ok _ => (.ok r2, effs ++ [.statusWrite "failed" (storedError e)])
  | .error e2 => (.error e2, effs)

/-- orchestrator.py analyze_website: create the job, mark it analyzing,
provision sessions, then inside a try block run the parallel batch, the
sequential synthesis stage, the score aggregation, the artifact
generation and the final store update; any fault inside the try block is
routed to the except block.  The calls before the try block are not
protected: their faults escape as Except.error. -/
def analyzeWebsite (url : String) (env : PipelineEnv) :
    Except String SEOAnalysisResult × List Effect :=
  match env.createReq with
  | .error e => (.error e, [])
  | .ok rid =>
    let effs0 := [Effect.statusWrite "pending" none]
    match env.updAnalyzing with
    | .error e => (.error e, effs0)
    | .ok _ =>
      let effs1 := effs0 ++ [.statusWrite "analyzing" none]
      match env.createSessions with
      | .error e => (.error e, effs1)
      | .ok _ =>
        let base : SEOAnalysisResult :=
          { url := url, request_id := rid, status := "analyzing" }
        match env.logParallelStart with
        | .error e => exceptBlock base e effs1 env
        | .ok _ =>
          let effs2 := effs1 ++ [.agentLog "orchestrator" "parallel_analysis_start"]
          let par := runParallelAnalysis url env.workerEnvs
          let r1 := { base with agent_results := par.1 }
          let effs3 := effs2 ++ par.2
          match env.logReportStart with
          | .error e => exceptBlock r1 e effs3 env
          | .ok _ =>
            let effs4 := effs3 ++ [.agentLog "orchestrator" "report_generation_start"]
            let rep := runAgentFull "report_agent" (reportPrompt url par.1) env.reportEnv
            let effs5 := effs4 ++ rep.2
            match rep.1 with
            | .error e => exceptBlock r1 e effs5 env
            | .ok reportResult =>
              let r2 :=
                if reportResult.success then
                  { r1 with
                    final_report := some reportResult.result,
                    status := "completed",
                    overall_score := aggregateOverall (collectScores par.1),
                    pdf_path := env.pdfPath }
                else
                  { r1 with
                    status := "partial",
                    final_report :=
                      some "Report generation failed. See individual agent results." }
              let r3 := { r2 with total_duration_ms := (env.elapsedTotalMs : Int) }
              match env.updFinal with
              | .error e => exceptBlock r3 e effs5 env
              | .ok _ => (.ok r3, effs5 ++ [.statusWrite r3.status none])

/-- Sequence of persisted job-status values, in write order. -/
def statusList (effs : List Effect) : List String :=
  effs.filterMap (fun e =>
    match e with
    | .statusWrite s _ => some s
    | _ => none)

/-- Effects belonging to the observability tracer. -/
def isTracerEffect (e : Effect) : Bool :=
  match e with
  | .traceStart => true
  | .traceEnd => true
  | .spanRec _ => true
  | _ => false

/-! ### Tracer replay (observability.py Tracer)

start_trace increments the trace counter, end_trace closes the current
trace, and the span context manager appends one span record.  Replaying
the effect list of a run into this state gives the traces opened and
closed and the spans recorded during that run. -/

/-- In-memory tracer state (observability.py Tracer fields). -/
structure TracerState where
  traceIdCounter : Nat := 0
  endedCount : Nat := 0
  currentTrace : Option Nat := none
  spans : List String := []
deriving Repr, DecidableEq

/-- One tracer step: the effect of a single observability call on the
tracer state; non-tracer effects leave it unchanged. -/
def applyEffect (ts : TracerState) : Effect → TracerState
  | .traceStart =>
    { ts with traceIdCounter := ts.traceIdCounter + 1,
              currentTrace := some (ts.traceIdCounter + 1) }
  | .traceEnd => { ts with endedCount := ts.endedCount + 1, currentTrace := none }
  | .spanRec n => { ts with spans := ts.spans ++ [n] }
  | _ => ts

/-- Tracer state after replaying an effect list. -/
def replayTracer (effs : List Effect) : TracerState :=
  effs.foldl applyEffect {}

/-- The per-worker entry produced by the fan-out for one agent name. -/
def entryFor (url n : String) (e : WorkerEnv) : Option (String × AgentResult) :=
  match (runAgentFull n (agentPrompt url n) e).1 with
  | .ok r => some (r.agent_name, r)
  | .error _ => none

/-- Worker environment where the capability succeeds and the store is up. -/
def wEnvGood : WorkerEnv :=
  { invoke := fun _ => Except.ok "Overall SEO Score: 82/100",
    logComplete := Except.ok (), logError := Except.ok (), elapsedMs := 10 }

/-- Worker environment where the capability faults and the store is up. -/
def wEnvFault : WorkerEnv :=
  { invoke := fun _ => Except.error "connection refused",
    logComplete := Except.ok (), logError := Except.ok (), elapsedMs := 12 }

/-- Concrete worker-environment assignment: the security worker faults,
its four siblings succeed. -/
def envsOneFault : String → WorkerEnv :=
  fun n => if n = "security_agent" then wEnvFault else wEnvGood

/-- Pipeline environment in which every external call succeeds. -/
def envAllOk : PipelineEnv :=
  { createReq := Except.ok "req_0001",
    updAnalyzing := Except.ok true,
    createSessions := Except.ok (),
    logParallelStart := Except.ok (),
    workerEnvs := fun _ => wEnvGood,
    logReportStart := Except.ok (),
    reportEnv := wEnvGood,
    pdfPath := some "reports/seo_report_req_0001.pdf",
    updFinal := Except.ok true,
    updFailed := Except.ok true,
    elapsedTotalMs := 1234 }

/-- Environment whose durable store is unavailable already at job
creation. -/
def envStoreDown : PipelineEnv :=
  { envAllOk with createReq := Except.error "database unavailable" }

/-- Environment where session provisioning faults after the job was
marked analyzing. -/
def envSessionFault : PipelineEnv :=
  { envAllOk with createSessions := Except.error "session service unavailable" }

/-- Environment where the try block faults at its very first store log
while the failure-path status write still works. -/
def envLogFault : PipelineEnv :=
  { envAllOk with logParallelStart := Except.error "disk input output error" }

/-- Environment where the synthesis capability faults and everything else
works. -/
def envSynthFault : PipelineEnv :=
  { envAllOk with reportEnv := wEnvFault }

/-! ### Helper lemmas about the worker layer -/

theorem runAgent_ok (n p : String) (e : WorkerEnv) (r : AgentResult)
    (h : (runAgent n p e).1 = Except.ok r) :
    r.agent_name = n ∧ 0 ≤ r.duration_ms := by
  rcases hi : e.invoke p with m | t <;>
    rcases hl : e.logComplete with m1 | u1 <;>
      rcases he : e.logError with m2 | u2 <;>
        simp [runAgent, hi, hl, he] at h <;>
          (subst h; exact ⟨rfl, Int.natCast_nonneg _⟩)

theorem runAgentFull_ok (n p : String) (e : WorkerEnv) (r : AgentResult)
    (h : (runAgentFull n p e).1 = Except.ok r) :
    r.agent_name = n ∧ 0 ≤ r.duration_ms := by
  by_cases hm : n ∈ runnerNames
  · exact runAgent_ok n p e r (by simpa [runAgentFull, hm] using h)
  · simp [runAgentFull, hm] at h
    subst h
    exact ⟨rfl, le_refl 0⟩

/-- With both store log inserts succeeding, _run_agent never lets an
exception escape, whatever the capability invocation does. -/
theorem runAgent_ok_of_logs (n p : String) (e : WorkerEnv)
    (hc : e.logComplete = Except.ok ()) (he : e.logError = Except.ok ()) :
    ∃ r, (runAgent n p e).1 = Except.ok r := by
  rcases hi : e.invoke p with m | t
  · exact ⟨{ agent_name := n, success := false, result := "",
             duration_ms := (e.elapsedMs : Int), error := some m },
           by simp [runAgent, hi, hc, he]⟩
  · exact ⟨{ agent_name := n, success := true, result := t,
             duration_ms := (e.elapsedMs : Int), error := none },
           by simp [runAgent, hi, hc, he]⟩

/-- A capability fault with a working store produces a failed result
carrying the fault message. -/
theorem runAgent_fault (n p : String) (e : WorkerEnv) (m : String)
    (hi : e.invoke p = Except.error m) (he : e.logError = Except.ok ()) :
    (runAgent n p e).1 =
      Except.ok { agent_name := n, success := false, result := "",
                  duration_ms := (e.elapsedMs : Int), error := some m } := by
  simp [runAgent, hi, he]

theorem runParallelAnalysis_fst (url : String) (envs : String → WorkerEnv) :
    (runParallelAnalysis url envs).1 =
      analysisAgentNames.filterMap (fun n => entryFor url n (envs n)) := by
  simp only [runParallelAnalysis, List.filterMap_map]
  rfl

theorem entryFor_key (url n : String) (e : WorkerEnv) (q : String × AgentResult)
    (h : entryFor url n e = some q) : q.1 = n := by
  unfold entryFor at h
  rcases hr : (runAgentFull n (agentPrompt url n) e).1 with m | r
  · simp [hr] at h
  · simp [hr] at h
    subst h
    exact (runAgentFull_ok n _ e r hr).1

/-! ### Generic association-list lemmas -/

theorem lookup_filterMap_none {β : Type} (f : String → Option (String × β))
    (hkey : ∀ m q, f m = some q → q.1 = m) :
    ∀ (names : List String) (n : String), n ∉ names →
      (names.filterMap f).lookup n = none := by
  intro names
  induction names with
  | nil => intro n _; rfl
  | cons m ms ih =>
    intro n hn
    have hne : n ≠ m := fun h => hn (h ▸ List.mem_cons_self m ms)
    have hnm : n ∉ ms := fun h => hn (List.mem_cons_of_mem m h)
    rcases hf : f m with _ | q
    · simpa [List.filterMap_cons, hf] using ih n hnm
    · have hq : q.1 = m := hkey m q hf
      rcases q with ⟨k, v⟩
      simp only at hq
      subst hq
      have hb : (n == k) = false := beq_eq_false_iff_ne.mpr hne
      simp [List.filterMap_cons, hf, List.lookup, hb, ih n hnm]

theorem lookup_filterMap {β : Type} (f : String → Option (String × β))
    (hkey : ∀ m q, f m = some q → q.1 = m) :
    ∀ (names : List String) (n : String), names.Nodup → n ∈ names →
      (names.filterMap f).lookup n = (f n).map Prod.snd := by
  intro names
  induction names with
  | nil => intro n _ h; cases h
  | cons m ms ih =>
    intro n hnd hn
    have hnd2 : ms.Nodup := (List.nodup_cons.mp hnd).2
    have hmnot : m ∉ ms := (List.nodup_cons.mp hnd).1
    rcases List.mem_cons.mp hn with rfl | hmem
    · rcases hf : f n with _ | q
      · simp [List.filterMap_cons, hf,
              lookup_filterMap_none f hkey ms n hmnot]
      · have hq : q.1 = n := hkey n q hf
        rcases q with ⟨k, v⟩
        simp only at hq
        subst hq
        simp [List.filterMap_cons, hf, List.lookup]
    · have hne : n ≠ m := fun h => hmnot (h ▸ hmem)
      rcases hf : f m with _ | q
      · simpa [List.filterMap_cons, hf] using ih n hnd2 hmem
      · have hq : q.1 = m := hkey m q hf
        rcases q with ⟨k, v⟩
        simp only at hq
        subst hq
        have hb : (n == k) = false := beq_eq_false_iff_ne.mpr hne
        simp [List.filterMap_cons, hf, List.lookup, hb, ih n hnd2 hmem]

theorem analysisAgentNames_nodup : analysisAgentNames.Nodup := by decide

theorem mem_runnerNames_of_analysis {n : String} (h : n ∈ analysisAgentNames) :
    n ∈ runnerNames := List.mem_append_left _ h

theorem map_fst_filterMap_of_total {β : Type} (f : String → Option (String × β))
    (hkey : ∀ m q, f m = some q → q.1 = m) :
    ∀ (names : List String), (∀ n ∈ names, ∃ v, f n = some v) →
      (names.filterMap f).map Prod.fst = names := by
  intro names
  induction names with
  | nil => intro _; rfl
  | cons m ms ih =>
    intro h
    rcases h m (List.mem_cons_self m ms) with ⟨v, hv⟩
    have hk : v.1 = m := hkey m v hv
    simp [List.filterMap_cons, hv, hk,
          ih (fun n hn => h n (List.mem_cons_of_mem m hn))]

/-- For a name with a Runner and a working store, the fan-out entry is
exactly the (keyed) outcome of that worker's _run_agent call. -/
theorem entryFor_of_ok (url n : String) (e : WorkerEnv) (r : AgentResult)
    (hr : (runAgentFull n (agentPrompt url n) e).1 = Except.ok r) :
    entryFor url n e = some (r.agent_name, r) := by
  simp [entryFor, hr]

/-- Claim C1: for every configured worker set, the parallel fan-out waits
for every worker task to settle before returning; a worker whose
invocation faults is recorded in the result map as a failed result
carrying the fault message and does not affect sibling workers; the
returned map has keys among the configured worker names, a boolean
success flag and a nonnegative duration.  The wait-for-all conjunct shows
that with the durable store available the result map holds an entry for
every one of the five configured workers; isolation is the statement that
the entry of a worker is a function of that worker alone. -/
theorem c1_parallel_fanin :
    (∀ (url : String) (envs : String → WorkerEnv) (p : String × AgentResult),
        p ∈ (runParallelAnalysis url envs).1 →
        p.1 ∈ analysisAgentNames ∧ (p.2.success = true ∨ p.2.success = false) ∧
          0 ≤ p.2.duration_ms) ∧
    (∀ (url : String) (envs : String → WorkerEnv),
        (∀ n, (envs n).logComplete = Except.ok () ∧ (envs n).logError = Except.ok ()) →
        ((runParallelAnalysis url envs).1.map Prod.fst) = analysisAgentNames) ∧
    (∀ (url : String) (envs : String → WorkerEnv) (n m : String),
        n ∈ analysisAgentNames →
        (envs n).invoke (agentPrompt url n) = Except.error m →
        (envs n).logError = Except.ok () →
        ∃ r, ((runParallelAnalysis url envs).1.lookup n) = some r ∧
          r.agent_name = n ∧ r.success = false ∧ r.error = some m) ∧
    (∀ (url : String) (envs envs2 : String → WorkerEnv) (n : String),
        envs n = envs2 n →
        ((runParallelAnalysis url envs).1.lookup n) =
          ((runParallelAnalysis url envs2).1.lookup n)) := by
  refine ⟨?_, ?_, ?_, ?_⟩
  · intro url envs p hp
    rw [runParallelAnalysis_fst] at hp
    obtain ⟨n, hn, he⟩ := List.mem_filterMap.mp hp
    unfold entryFor at he
    rcases hr : (runAgentFull n (agentPrompt url n) (envs n)).1 with e | r
    · simp [hr] at he
    · simp [hr] at he
      obtain ⟨hname, hdur⟩ := runAgentFull_ok n _ (envs n) r hr
      subst he
      exact ⟨by simpa [hname] using hn, by cases r.success <;> simp, hdur⟩
  · intro url envs hlogs
    rw [runParallelAnalysis_fst]
    refine map_fst_filterMap_of_total _
      (fun m q hq => entryFor_key url m (envs m) q hq) _ ?_
    intro n hn
    obtain ⟨r, hr⟩ := runAgent_ok_of_logs n (agentPrompt url n) (envs n)
      (hlogs n).1 (hlogs n).2
    have hfull : (runAgentFull n (agentPrompt url n) (envs n)).1 = Except.ok r := by
      simp [runAgentFull, mem_runnerNames_of_analysis hn, hr]
    exact ⟨_, entryFor_of_ok url n (envs n) r hfull⟩
  · intro url envs n m hn hi he
    rw [runParallelAnalysis_fst]
    rw [lookup_filterMap _ (fun m2 q hq => entryFor_key url m2 (envs m2) q hq)
      analysisAgentNames n analysisAgentNames_nodup hn]
    have hfull : (runAgentFull n (agentPrompt url n) (envs n)).1 =
        Except.ok { agent_name := n, success := false, result := "",
                    duration_ms := ((envs n).elapsedMs : Int), error := some m } := by
      rw [runAgentFull, if_pos (mem_runnerNames_of_analysis hn)]
      exact runAgent_fault n _ (envs n) m hi he
    rw [entryFor_of_ok url n (envs n) _ hfull]
    exact ⟨_, rfl, rfl, rfl, rfl⟩
  · intro url envs envs2 n h
    by_cases hn : n ∈ analysisAgentNames
    · rw [runParallelAnalysis_fst, runParallelAnalysis_fst,
        lookup_filterMap _ (fun m2 q hq => entryFor_key url m2 (envs m2) q hq)
          analysisAgentNames n analysisAgentNames_nodup hn,
        lookup_filterMap _ (fun m2 q hq => entryFor_key url m2 (envs2 m2) q hq)
          analysisAgentNames n analysisAgentNames_nodup hn, h]
    · rw [runParallelAnalysis_fst, runParallelAnalysis_fst,
        lookup_filterMap_none _ (fun m2 q hq => entryFor_key url m2 (envs m2) q hq)
          analysisAgentNames n hn,
        lookup_filterMap_none _ (fun m2 q hq => entryFor_key url m2 (envs2 m2) q hq)
          analysisAgentNames n hn]

/-! ### Effect-shape lemmas for the whole pipeline -/

theorem statusList_append (a b : List Effect) :
    statusList (a ++ b) = statusList a ++ statusList b := by
  simp [statusList, List.filterMap_append]

theorem statusList_runAgent (n p : String) (e : WorkerEnv) :
    statusList (runAgent n p e).2 = [] := by
  rcases hi : e.invoke p with m | t <;>
    rcases hl : e.logComplete with m1 | u1 <;>
      rcases he : e.logError with m2 | u2 <;>
        simp [runAgent, hi, hl, he, statusList]

theorem statusList_runAgentFull (n p : String) (e : WorkerEnv) :
    statusList (runAgentFull n p e).2 = [] := by
  by_cases hm : n ∈ runnerNames
  · simpa [runAgentFull, hm] using statusList_runAgent n p e
  · simp [runAgentFull, hm, statusList]

theorem statusList_flatten_nil (l : List (List Effect))
    (h : ∀ a ∈ l, statusList a = []) : statusList l.flatten = [] := by
  induction l with
  | nil => rfl
  | cons x xs ih =>
    rw [List.flatten_cons, statusList_append, h x (List.mem_cons_self x xs),
      ih (fun a ha => h a (List.mem_cons_of_mem x ha))]
    rfl

theorem statusList_runParallel (url : String) (envs : String → WorkerEnv) :
    statusList (runParallelAnalysis url envs).2 = [] := by
  unfold runParallelAnalysis
  refine statusList_flatten_nil _ ?_
  intro a ha
  simp only [List.map_map, List.mem_map] at ha
  obtain ⟨n, _, hn⟩ := ha
  rw [← hn]
  exact statusList_runAgentFull n (agentPrompt url n) (envs n)

theorem noTracer_runAgent (n p : String) (e : WorkerEnv) :
    ∀ x ∈ (runAgent n p e).2, isTracerEffect x = false := by
  rcases hi : e.invoke p with m | t <;>
    rcases hl : e.logComplete with m1 | u1 <;>
      rcases he : e.logError with m2 | u2 <;>
        (intro x hx
         simp [runAgent, hi, hl, he] at hx) <;>
        (rcases hx with rfl | rfl <;> rfl)

theorem noTracer_runAgentFull (n p : String) (e : WorkerEnv) :
    ∀ x ∈ (runAgentFull n p e).2, isTracerEffect x = false := by
  by_cases hm : n ∈ runnerNames
  · simpa [runAgentFull, hm] using noTracer_runAgent n p e
  · simp [runAgentFull, hm]

theorem noTracer_runParallel (url : String) (envs : String → WorkerEnv) :
    ∀ x ∈ (runParallelAnalysis url envs).2, isTracerEffect x = false := by
  intro x hx
  unfold runParallelAnalysis at hx
  simp only [List.map_map, List.mem_flatten, List.mem_map] at hx
  obtain ⟨l, ⟨n, _, hn⟩, hxl⟩ := hx
  rw [← hn] at hxl
  exact noTracer_runAgentFull n (agentPrompt url n) (envs n) x hxl

theorem noTracer_append {a b : List Effect}
    (ha : ∀ x ∈ a, isTracerEffect x = false)
    (hb : ∀ x ∈ b, isTracerEffect x = false) :
    ∀ x ∈ a ++ b, isTracerEffect x = false := by
  intro x hx
  rcases List.mem_append.mp hx with h | h
  exacts [ha x h, hb x h]

theorem noTracer_single {e : Effect} (h : isTracerEffect e = false) :
    ∀ x ∈ [e], isTracerEffect x = false := by
  intro x hx
  rw [List.mem_singleton.mp hx]
  exact h

/-- Status writes and observability of one whole analyze_website run: the
persisted status sequence is always a prefix of pending, analyzing, then
one terminal status, and no tracer operation is ever emitted. -/
theorem analyzeWebsite_shape (url : String) (env : PipelineEnv) :
    statusList (analyzeWebsite url env).2 ∈
      ([[], ["pending"], ["pending", "analyzing"],
        ["pending", "analyzing", "completed"],
        ["pending", "analyzing", "partial"],
        ["pending", "analyzing", "failed"]] : List (List String)) ∧
    ∀ x ∈ (analyzeWebsite url env).2, isTracerEffect x = false := by
  have hpar := statusList_runParallel url env.workerEnvs
  have hpart := noTracer_runParallel url env.workerEnvs
  simp only [analyzeWebsite, exceptBlock]
  rcases env.createReq with e | rid
  · exact ⟨by simp [statusList], by simp⟩
  rcases env.updAnalyzing with e | b
  · exact ⟨by simp [statusList], by
      intro x hx
      rw [List.mem_singleton.mp hx]
      rfl⟩
  rcases env.createSessions with e | u
  · refine ⟨by simp [statusList, statusList_append], ?_⟩
    exact noTracer_append (noTracer_single rfl) (noTracer_single rfl)
  rcases env.logParallelStart with e | u1
  · rcases env.updFailed with e2 | b2
    · refine ⟨by simp [statusList, statusList_append], ?_⟩
      exact noTracer_append (noTracer_single rfl) (noTracer_single rfl)
    · refine ⟨by simp [statusList, statusList_append], ?_⟩
      exact noTracer_append
        (noTracer_append (noTracer_single rfl) (noTracer_single rfl))
        (noTracer_single rfl)
  rcases hrep : runAgentFull "report_agent"
      (reportPrompt url (runParallelAnalysis url env.workerEnvs).1)
      env.reportEnv with ⟨o, reffs⟩
  have hrs : statusList reffs = [] := by
    have h0 := statusList_runAgentFull "report_agent"
      (reportPrompt url (runParallelAnalysis url env.workerEnvs).1) env.reportEnv
    rw [hrep] at h0
    exact h0
  have hrt : ∀ x ∈ reffs, isTracerEffect x = false := by
    have h0 := noTracer_runAgentFull "report_agent"
      (reportPrompt url (runParallelAnalysis url env.workerEnvs).1) env.reportEnv
    rw [hrep] at h0
    exact h0
  have base2 : ∀ x ∈ ([Effect.statusWrite "pending" none] ++
      [Effect.statusWrite "analyzing" none] ++
      [Effect.agentLog "orchestrator" "parallel_analysis_start"] ++
      (runParallelAnalysis url env.workerEnvs).2),
      isTracerEffect x = false :=
    noTracer_append (noTracer_append
      (noTracer_append (noTracer_single rfl) (noTracer_single rfl))
      (noTracer_single rfl)) hpart
  rcases env.logReportStart with e | u2
  · rcases env.updFailed with e2 | b2
    · exact ⟨by simp only [statusList_append, hpar]; simp [statusList], base2⟩
    · refine ⟨by simp only [statusList_append, hpar]; simp [statusList], ?_⟩
      exact noTracer_append base2 (noTracer_single rfl)
  have base3 : ∀ x ∈ ([Effect.statusWrite "pending" none] ++
      [Effect.statusWrite "analyzing" none] ++
      [Effect.agentLog "orchestrator" "parallel_analysis_start"] ++
      (runParallelAnalysis url env.workerEnvs).2 ++
      [Effect.agentLog "orchestrator" "report_generation_start"] ++ reffs),
      isTracerEffect x = false :=
    noTracer_append (noTracer_append base2 (noTracer_single rfl)) hrt
  rcases o with e | rr
  · rcases env.updFailed with e2 | b2
    · exact ⟨by simp only [statusList_append, hpar, hrs]; simp [statusList], base3⟩
    · refine ⟨by simp only [statusList_append, hpar, hrs]; simp [statusList], ?_⟩
      exact noTracer_append base3 (noTracer_single rfl)
  rcases hs : rr.success with _ | _ <;>
    rcases env.updFinal with e3 | b3
  · rcases env.updFailed with e2 | b2
    · exact ⟨by simp only [statusList_append, hpar, hrs]; simp [statusList], base3⟩
    · refine ⟨by simp only [statusList_append, hpar, hrs]; simp [statusList], ?_⟩
      exact noTracer_append base3 (noTracer_single rfl)
  · refine ⟨by simp only [statusList_append, hpar, hrs]; simp [statusList, hs], ?_⟩
    exact noTracer_append base3 (noTracer_single rfl)
  · rcases env.updFailed with e2 | b2
    · exact ⟨by simp only [statusList_append, hpar, hrs]; simp [statusList], base3⟩
    · refine ⟨by simp only [statusList_append, hpar, hrs]; simp [statusList], ?_⟩
      exact noTracer_append base3 (noTracer_single rfl)
  · refine ⟨by simp only [statusList_append, hpar, hrs]; simp [statusList, hs], ?_⟩
    exact noTracer_append base3 (noTracer_single rfl)

theorem c1_parallel_fanin_witness :
    ("security_agent" ∈ analysisAgentNames) ∧
    ((envsOneFault "security_agent").invoke
        (agentPrompt "https://example.com" "security_agent") =
      Except.error "connection refused") ∧
    ((runParallelAnalysis "https://example.com" envsOneFault).1.map Prod.fst =
      analysisAgentNames) ∧
    (∃ r, ((runParallelAnalysis "https://example.com" envsOneFault).1.lookup
        "security_agent") = some r ∧
      r.agent_name = "security_agent" ∧ r.success = false ∧
      r.error = some "connection refused") := by
  refine ⟨by decide, rfl, ?_, ?_⟩
  · exact c1_parallel_fanin.2.1 "https://example.com" envsOneFault
      (fun n => by unfold envsOneFault wEnvGood wEnvFault; split <;> exact ⟨rfl, rfl⟩)
  · exact c1_parallel_fanin.2.2.1 "https://example.com" envsOneFault
      "security_agent" "connection refused" (by decide) rfl
      (by unfold envsOneFault wEnvFault; simp)

/-- Claim C2, counterexample: with the durable store unavailable at job
creation - the very example the claim gives - analyze_website raises the
store fault to its caller instead of returning a result record, because
create_analysis_request runs before the try block. -/
theorem c2_top_level_counterexample :
    (analyzeWebsite "https://example.com" envStoreDown).1 =
      Except.error "database unavailable" := rfl

/-- Claim C2, amended: analyze_website returns a result record provided
job creation, the initial status update, session provisioning and the
failure-path store update all succeed; under those conditions any fault
inside the main try block - here its first statement, the
parallel-analysis-start store log - is caught, sets the job status to
Failed with the captured fault message persisted verbatim, and the call
still returns the result record.  Faults in the unprotected calls before
the try block (job creation, initial status update, session
provisioning) and in the failure-path store update itself propagate to
the caller. -/
theorem c2_top_level_amended :
    ∀ (url : String) (env : PipelineEnv) (rid : String) (b b2 : Bool),
      env.createReq = Except.ok rid →
      env.updAnalyzing = Except.ok b →
      env.createSessions = Except.ok () →
      env.updFailed = Except.ok b2 →
      (∃ r, (analyzeWebsite url env).1 = Except.ok r) ∧
      (∀ m, m ≠ "" → env.logParallelStart = Except.error m →
        ∃ r, (analyzeWebsite url env).1 = Except.ok r ∧ r.status = "failed" ∧
          Effect.statusWrite "failed" (some m) ∈ (analyzeWebsite url env).2) := by
  intro url env rid b b2 hcr hua hcs huf
  simp only [analyzeWebsite, exceptBlock, hcr, hua, hcs, huf]
  constructor
  · rcases env.logParallelStart with e | u1
    · exact ⟨_, rfl⟩
    rcases env.logReportStart with e | u2
    · exact ⟨_, rfl⟩
    rcases runAgentFull "report_agent"
        (reportPrompt url (runParallelAnalysis url env.workerEnvs).1)
        env.reportEnv with ⟨o, reffs⟩
    rcases o with e | rr
    · exact ⟨_, rfl⟩
    rcases env.updFinal with e3 | b3
    · exact ⟨_, rfl⟩
    · exact ⟨_, rfl⟩
  · intro m hm hlog
    simp only [hlog]
    refine ⟨_, rfl, rfl, ?_⟩
    have hst : storedError m = some m := by simp [storedError, hm]
    simp [hst]

theorem c2_top_level_amended_witness :
    (envLogFault.createReq = Except.ok "req_0001") ∧
    (envLogFault.logParallelStart = Except.error "disk input output error") ∧
    (∃ r, (analyzeWebsite "https://example.com" envLogFault).1 = Except.ok r ∧
      r.status = "failed" ∧
      Effect.statusWrite "failed" (some "disk input output error") ∈
        (analyzeWebsite "https://example.com" envLogFault).2) := by
  refine ⟨rfl, rfl, ?_⟩
  exact (c2_top_level_amended "https://example.com" envLogFault "req_0001"
    true true rfl rfl rfl rfl).2 "disk input output error" (by decide) rfl

/-- Claim C3, counterexample: a fault in session provisioning - which
runs after the job is marked analyzing but outside the try block - leaves
the job permanently at analyzing: the complete persisted status sequence
of the run is pending, analyzing, with no terminal transition ever, and
the call raises.  The claimed sequence Pending, Analyzing, then exactly
one terminal status therefore does not always complete. -/
theorem c3_status_counterexample :
    statusList (analyzeWebsite "https://example.com" envSessionFault).2 =
      ["pending", "analyzing"] ∧
    "completed" ∉ statusList (analyzeWebsite "https://example.com" envSessionFault).2 ∧
    "partial" ∉ statusList (analyzeWebsite "https://example.com" envSessionFault).2 ∧
    "failed" ∉ statusList (analyzeWebsite "https://example.com" envSessionFault).2 ∧
    (analyzeWebsite "https://example.com" envSessionFault).1 =
      Except.error "session service unavailable" := by
  refine ⟨rfl, ?_, ?_, ?_, rfl⟩ <;> decide

/-- Claim C3, amended: the persisted status sequence of every run is a
prefix of Pending, Analyzing, then one terminal status drawn from
Completed, Partial, Failed - so the status never regresses, no status is
written twice, and nothing is written after a terminal status - but the
sequence is not always completed: a fault outside the protected block can
end the run early, leaving the job without a terminal transition. -/
theorem c3_status_monotonic_prefix :
    ∀ (url : String) (env : PipelineEnv),
      statusList (analyzeWebsite url env).2 = [] ∨
      statusList (analyzeWebsite url env).2 = ["pending"] ∨
      statusList (analyzeWebsite url env).2 = ["pending", "analyzing"] ∨
      ∃ t, (t = "completed" ∨ t = "partial" ∨ t = "failed") ∧
        statusList (analyzeWebsite url env).2 = ["pending", "analyzing", t] := by
  intro url env
  have h := (analyzeWebsite_shape url env).1
  simp only [List.mem_cons, List.not_mem_nil, or_false] at h
  rcases h with h | h | h | h | h | h
  · exact Or.inl h
  · exact Or.inr (Or.inl h)
  · exact Or.inr (Or.inr (Or.inl h))
  · exact Or.inr (Or.inr (Or.inr ⟨"completed", Or.inl rfl, h⟩))
  · exact Or.inr (Or.inr (Or.inr ⟨"partial", Or.inr (Or.inl rfl), h⟩))
  · exact Or.inr (Or.inr (Or.inr ⟨"failed", Or.inr (Or.inr rfl), h⟩))

/-- Claim C7: a fault of the synthesis capability, with the rest of the
run healthy, degrades the job to status partial with the placeholder
report string, persists the partial status, and is recovered locally -
the call returns its result record instead of raising. -/
theorem c7_synthesis_fault_partial :
    ∀ (url : String) (env : PipelineEnv) (rid m : String) (b b3 : Bool),
      env.createReq = Except.ok rid →
      env.updAnalyzing = Except.ok b →
      env.createSessions = Except.ok () →
      env.logParallelStart = Except.ok () →
      env.logReportStart = Except.ok () →
      (∀ p, env.reportEnv.invoke p = Except.error m) →
      env.reportEnv.logError = Except.ok () →
      env.updFinal = Except.ok b3 →
      ∃ r, (analyzeWebsite url env).1 = Except.ok r ∧
        r.status = "partial" ∧
        r.final_report =
          some "Report generation failed. See individual agent results." ∧
        Effect.statusWrite "partial" none ∈ (analyzeWebsite url env).2 := by
  intro url env rid m b b3 hcr hua hcs hlp hlr hi he huf
  have hrep1 : (runAgentFull "report_agent"
      (reportPrompt url (runParallelAnalysis url env.workerEnvs).1)
      env.reportEnv).1 =
      Except.ok { agent_name := "report_agent", success := false, result := "",
                  duration_ms := (env.reportEnv.elapsedMs : Int),
                  error := some m } := by
    rw [runAgentFull, if_pos (by decide : ("report_agent" : String) ∈ runnerNames)]
    exact runAgent_fault "report_agent" _ env.reportEnv m (hi _) he
  simp only [analyzeWebsite, exceptBlock, hcr, hua, hcs, hlp, hlr, hrep1, huf]
  refine ⟨_, rfl, rfl, rfl, ?_⟩
  simp

theorem c7_synthesis_fault_partial_witness :
    (envSynthFault.reportEnv.invoke
        (reportPrompt "https://example.com"
          (runParallelAnalysis "https://example.com" envSynthFault.workerEnvs).1) =
      Except.error "connection refused") ∧
    (∃ r, (analyzeWebsite "https://example.com" envSynthFault).1 = Except.ok r ∧
      r.status = "partial" ∧
      r.final_report =
        some "Report generation failed. See individual agent results." ∧
      Effect.statusWrite "partial" none ∈
        (analyzeWebsite "https://example.com" envSynthFault).2) := by
  refine ⟨rfl, ?_⟩
  exact c7_synthesis_fault_partial "https://example.com" envSynthFault
    "req_0001" "connection refused" true true rfl rfl rfl rfl rfl
    (fun _ => rfl) rfl rfl

/-- Claim C8: the top-level pipeline opens no trace, closes no trace and
records no span at all - observability.py provides start_trace, end_trace
and span, and main.py even imports the log helpers that would call them,
but no code on the analyze_website path ever invokes the tracer.  The
claimed one trace per run with at least six spans is therefore not what
the code does: replaying the complete effect list of any run leaves the
tracer in its initial state. -/
theorem c8_no_tracer_activity :
    (∀ (url : String) (env : PipelineEnv),
      replayTracer (analyzeWebsite url env).2 = {}) ∧
    (replayTracer (analyzeWebsite "https://example.com" envAllOk).2).traceIdCounter
        = 0 ∧
    (replayTracer (analyzeWebsite "https://example.com" envAllOk).2).endedCount
        = 0 ∧
    (replayTracer (analyzeWebsite "https://example.com" envAllOk).2).spans.length
        = 0 ∧
    ¬ (replayTracer (analyzeWebsite "https://example.com" envAllOk).2).traceIdCounter
        = 1 ∧
    ¬ 6 ≤ (replayTracer
        (analyzeWebsite "https://example.com" envAllOk).2).spans.length := by
  have key : ∀ (url : String) (env : PipelineEnv),
      replayTracer (analyzeWebsite url env).2 = {} := by
    intro url env
    have h := (analyzeWebsite_shape url env).2
    unfold replayTracer
    generalize hg : (analyzeWebsite url env).2 = effs at h
    clear hg
    induction effs with
    | nil => rfl
    | cons e t ih =>
      have he : isTracerEffect e = false := h e (List.mem_cons_self e t)
      have hstep : applyEffect {} e = {} := by
        cases e <;> first | rfl | (simp [isTracerEffect] at he)
      rw [List.foldl_cons, hstep]
      exact ih (fun x hx => h x (List.mem_cons_of_mem e hx))
  have h0 := key "https://example.com" envAllOk
  refine ⟨key, ?_, ?_, ?_, ?_, ?_⟩ <;> rw [h0] <;> decide

theorem searchScoreKw_none (cs : List Char)
    (h : hasSub ("score".data) cs = false) : searchScoreKw cs = none := by
  induction cs with
  | nil => rfl
  | cons c t ih =>
    rw [hasSub] at h
    rcases Bool.or_eq_false_iff.mp h with ⟨h1, h2⟩
    rw [searchScoreKw, h1]
    exact ih h2

/-- Claim C4, counterexample: the overall-score extraction of the
orchestrator applies re.search with the pattern score[:\s]+(\d+) to the
lowercased text - it neither clamps the captured integer to the range
0..100 nor recognizes the keyword rating, contradicting the claimed
clamping and the claimed score-or-rating alternation. -/
theorem c4_parse_score_counterexample :
    parseScore "score: 150" = some 150 ∧ ¬ 150 ≤ 100 ∧
    parseScore "rating: 85" = none := by
  refine ⟨by decide, by decide, by decide⟩

/-- Claim C4, amended: score parsing returns the digit run that follows
the first occurrence of the keyword score plus at least one colon or
whitespace character, unclamped (a value above 100 is returned as is and
the keyword rating is not recognized); it returns none when no such
match exists - in particular on any text whose lowercase form does not
even contain the keyword - and the two quoted examples hold. -/
theorem c4_parse_score_amended :
    parseScore "Security Score: 85/100" = some 85 ∧
    parseScore "no numeric content" = none ∧
    parseScore "Score 72/100" = some 72 ∧
    parseScore "score: 150" = some 150 ∧
    parseScore "rating: 85" = none ∧
    (∀ s : String, hasSub ("score".data) (lowerChars s.data) = false →
      parseScore s = none) := by
  refine ⟨by decide, by decide, by decide, by decide, by decide, ?_⟩
  intro s h
  exact searchScoreKw_none (lowerChars s.data) h

theorem c4_parse_score_amended_witness :
    hasSub ("score".data) (lowerChars "no numeric content".data) = false ∧
    parseScore "no numeric content" = none := by
  refine ⟨by decide, ?_⟩
  exact c4_parse_score_amended.2.2.2.2.2 "no numeric content" (by decide)

/-- Claim C5: the overall score is the floor of the arithmetic mean of
the scores collected from the successful workers, and 0 when no scores
parsed; in particular the mean of 80, 60, 100 is floored to 80 and the
empty collection yields 0. -/
theorem c5_aggregate_overall :
    aggregateOverall [80, 60, 100] = 80 ∧
    aggregateOverall [] = 0 ∧
    ∀ l : List Nat, l ≠ [] →
      aggregateOverall l = Nat.floor ((l.sum : ℚ) / (l.length : ℚ)) := by
  refine ⟨by decide, rfl, ?_⟩
  intro l hl
  have hne : ¬ (l.isEmpty = true) := by
    simpa [List.isEmpty_iff] using hl
  rw [aggregateOverall, if_neg hne, Nat.floor_div_nat ((l.sum : ℚ)) l.length,
    Nat.floor_natCast]

theorem c5_aggregate_overall_witness :
    ([80, 60, 100] : List Nat) ≠ [] ∧
    aggregateOverall [80, 60, 100] =
      Nat.floor ((([80, 60, 100] : List Nat).sum : ℚ) /
        (([80, 60, 100] : List Nat).length : ℚ)) :=
  ⟨by decide, c5_aggregate_overall.2.2 [80, 60, 100] (by decide)⟩

/-- Claim C6: category-score extraction assigns a value to each of the
five fixed categories, and when neither the primary keyword-alternation
pattern nor the secondary fallback pattern matches for a category, that
category is assigned exactly the default constant 75. -/
theorem c6_category_default :
    ∀ (report name : String) (kws : List (List Char)),
      (name, kws) ∈ categoriesSpec →
      searchCategory kws (lowerChars report.data) = none →
      secondaryMatch name.data (lowerChars report.data) = false →
      (parse_category_scores report).lookup name = some 75 := by
  intro report name kws hmem hp hs
  have hcs : categoryScore name kws (lowerChars report.data) = 75 := by
    rw [categoryScore, hp, hs]
    rfl
  simp only [categoriesSpec, List.mem_cons, List.not_mem_nil, or_false,
    Prod.mk.injEq] at hmem
  rcases hmem with ⟨rfl, rfl⟩ | ⟨rfl, rfl⟩ | ⟨rfl, rfl⟩ | ⟨rfl, rfl⟩ | ⟨rfl, rfl⟩ <;>
    simp [parse_category_scores, categoriesSpec, List.lookup, hcs]

theorem c6_category_default_witness :
    (("performance", performanceKws) ∈ categoriesSpec) ∧
    searchCategory performanceKws
      (lowerChars "Security Score: 90/100 only.".data) = none ∧
    secondaryMatch ("performance".data)
      (lowerChars "Security Score: 90/100 only.".data) = false ∧
    (parse_category_scores "Security Score: 90/100 only.").lookup "performance"
      = some 75 := by
  refine ⟨by decide, by decide, by decide, ?_⟩
  exact c6_category_default "Security Score: 90/100 only." "performance"
    performanceKws (by decide) (by decide) (by decide)

theorem invoked_runAgent (n p : String) (e : WorkerEnv) (a q : String)
    (h : Effect.invoked a q ∈ (runAgent n p e).2) : a = n ∧ q = p := by
  rcases hi : e.invoke p with m | t <;>
    rcases hl : e.logComplete with m1 | u1 <;>
      rcases he : e.logError with m2 | u2 <;>
        simp [runAgent, hi, hl, he] at h <;> exact h

theorem invoked_runAgentFull (n p : String) (e : WorkerEnv) (a q : String)
    (h : Effect.invoked a q ∈ (runAgentFull n p e).2) : a = n ∧ q = p := by
  by_cases hm : n ∈ runnerNames
  · exact invoked_runAgent n p e a q (by simpa [runAgentFull, hm] using h)
  · simp [runAgentFull, hm] at h

theorem invoked_runParallel (url : String) (envs : String → WorkerEnv)
    (a q : String) (h : Effect.invoked a q ∈ (runParallelAnalysis url envs).2) :
    a ∈ analysisAgentNames ∧ q = agentPrompt url a := by
  unfold runParallelAnalysis at h
  simp only [List.map_map, List.mem_flatten, List.mem_map] at h
  obtain ⟨l, ⟨n, hn, hl⟩, hmem⟩ := h
  rw [← hl] at hmem
  obtain ⟨ha, hq⟩ := invoked_runAgentFull n (agentPrompt url n) (envs n) a q hmem
  subst ha
  exact ⟨hn, hq⟩

/-- Claim C9: the target example.com is normalized to the scheme-prefixed
https://example.com by the request validator (and by the tool-level
normalizer), and every worker instruction built by a fan-out over the
validated URL - whatever the worker environments do - embeds the
scheme-prefixed URL as a substring. -/
theorem c9_url_normalized_in_prompts :
    validate_url "example.com" = "https://example.com" ∧
    normalize_url "example.com" = "https://example.com" ∧
    (analysisAgentNames.all (fun n =>
      hasSub ("https://example.com".data)
        ((agentPrompt (validate_url "example.com") n).data))) = true ∧
    (∀ (envs : String → WorkerEnv) (a q : String),
      Effect.invoked a q ∈
          (runParallelAnalysis (validate_url "example.com") envs).2 →
      hasSub ("https://example.com".data) q.data = true) := by
  refine ⟨by decide, by decide, by decide, ?_⟩
  intro envs a q h
  obtain ⟨ha, hq⟩ := invoked_runParallel (validate_url "example.com") envs a q h
  subst hq
  revert ha
  have hall : (analysisAgentNames.all (fun n =>
      hasSub ("https://example.com".data)
        ((agentPrompt (validate_url "example.com") n).data))) = true := by decide
  intro ha
  exact List.all_eq_true.mp hall a ha

theorem c9_url_normalized_in_prompts_witness :
    (Effect.invoked "security_agent"
        (agentPrompt (validate_url "example.com") "security_agent") ∈
      (runParallelAnalysis (validate_url "example.com") envsOneFault).2) ∧
    hasSub ("https://example.com".data)
      ((agentPrompt (validate_url "example.com") "security_agent").data) = true := by
  constructor
  · decide
  · exact c9_url_normalized_in_prompts.2.2.2 envsOneFault "security_agent"
      (agentPrompt (validate_url "example.com") "security_agent") (by decide)

/-- Claim C10: the API background task replaces a computed overall score
of 0 - in particular the case where no worker score parsed - by 75 before
storing it, and the results endpoint returns the stored value (defaulting
to 75 when absent), so a completed analysis never reports an overall
score of 0. -/
theorem c10_zero_score_replaced :
    serverOverallScore 0 = 75 ∧
    (∀ s : Nat, serverOverallScore s ≠ 0) ∧
    (∀ s : Nat, resultsEndpointOverall (some (serverOverallScore s)) ≠ 0) ∧
    resultsEndpointOverall none = 75 := by
  refine ⟨rfl, ?_, ?_, rfl⟩ <;>
    (intro s
     by_cases h : s = 0 <;> simp [serverOverallScore, resultsEndpointOverall, h])

end SeoAnalyzer
